import Mathlib

/-!
Verification of the book price monitor scripts
(src/book_price_monitor.py and src/bookshop_price_monitor.py).

The network/HTML layer (requests + BeautifulSoup) is modelled as an
environment: each catalogue page is either a successfully fetched page
already extracted to its item records, a 404 not-found response, or an
other transport failure (timeout / connection error / non-2xx).  Prices
are modelled as rationals (Python floats hold exact decimals at the
magnitudes this program handles).  The chart rendering calls
(matplotlib) are external presentation; the plot functions are modelled
as the derivations they compute over the store data.
-/

/-- One extracted catalogue item, before the capture date is stamped
(title, price, stock, rating as produced by the per-item extraction in
the page loop of scrape_books). -/
structure Item where
  title : String
  price : ℚ
  stock : String
  rating : String
deriving DecidableEq

/-- One scraped book record, as appended to the in-memory batch by
scrape_books: the item fields plus the capture date. -/
structure Book where
  title : String
  price : ℚ
  stock : String
  rating : String
  date : String
deriving DecidableEq

/-- The outcome of fetching one catalogue page, as seen by the page
loop of scrape_books: a fetched page with its extracted items, a 404
status (end of pagination), or any other transport failure
(requests.RequestException: timeout, connection error, non-2xx raised
by raise_for_status). -/
inductive PageResult where
  | ok (items : List Item)
  | notFound
  | fetchError
deriving DecidableEq

/-- Result of scrape_books: the batch of books returned, and whether
the loop exited through the transport-error branch (which prints the
error message to the operator). -/
structure ScrapeOut where
  books : List Book
  errored : Bool
deriving DecidableEq

/-- Stamping of one extracted item with the run's capture date, as in
the dict literal appended to books inside scrape_books. -/
def mkBook (today : String) (it : Item) : Book :=
  ⟨it.title, it.price, it.stock, it.rating, today⟩

/-- The page loop of scrape_books (src/book_price_monitor.py lines
29-62).  The environment list holds the results for pages 1, 2, ... in
order; past its end the catalogue answers 404 (the site has finitely
many pages).  A 404 or an empty page breaks normally; any other
transport failure prints the error and breaks; a fetched non-empty
page appends its stamped items and the loop continues with the next
page. -/
def scrapeLoop (today : String) : List PageResult → ScrapeOut
  | [] => ⟨[], false⟩
  | PageResult.notFound :: _ => ⟨[], false⟩
  | PageResult.fetchError :: _ => ⟨[], true⟩
  | PageResult.ok items :: rest =>
    if items.isEmpty then ⟨[], false⟩
    else
      let r := scrapeLoop today rest
      ⟨items.map (mkBook today) ++ r.books, r.errored⟩

/-- scrape_books: computes today's date once before the loop, then
runs the page loop from page 1. -/
def scrape_books (today : String) (pages : List PageResult) : ScrapeOut :=
  scrapeLoop today pages

/-- One line of the CSV store: the header row written by writeheader,
or one data row written by writerows for a book record. -/
inductive Line where
  | header
  | data (b : Book)
deriving DecidableEq

/-- The store file state: none when the file does not exist, some
lines when it exists with those lines (some [] is an existing empty
file). -/
abbrev FileState : Type := Option (List Line)

/-- Whether a store line is the header row. -/
def isHeader : Line → Bool
  | Line.header => true
  | Line.data _ => false

/-- save_to_csv (src/book_price_monitor.py lines 66-77): if the file
does not exist, create it, write the header row, then the batch's
rows; if it exists (whatever its content), open in append mode and
write only the batch's rows. -/
def save_to_csv (data : List Book) (fs : FileState) : FileState :=
  match fs with
  | none => some (Line.header :: data.map Line.data)
  | some lines => some (lines ++ data.map Line.data)

/-- A sequence of runs persisting their batches in order, starting
from a given store state. -/
def runSaves (batches : List (List Book)) (fs : FileState) : FileState :=
  batches.foldl (fun s b => save_to_csv b s) fs

/-- run_tracker's effect on the store (src/book_price_monitor.py lines
124-133): scrape, then persist the returned batch.  The two plot
calls read the store but never write it. -/
def run_tracker (today : String) (pages : List PageResult) (fs : FileState) : FileState :=
  save_to_csv (scrape_books today pages).books fs

example : scrape_books "d" [PageResult.ok [⟨"A", 5, "s", "Three"⟩], PageResult.notFound]
    = ⟨[⟨"A", 5, "s", "Three", "d"⟩], false⟩ := by decide

example : scrape_books "d" [PageResult.ok [⟨"A", 5, "s", "Three"⟩], PageResult.fetchError]
    = ⟨[⟨"A", 5, "s", "Three", "d"⟩], true⟩ := by decide

/-- One record of the historical store as read back by csv.DictReader
in the reporting phase: every field is a string. -/
structure Row where
  title : String
  price : String
  stock : String
  rating : String
  date : String
deriving DecidableEq

/-- Value of a digit string read in base 10. -/
def natOfDigits (ds : List Char) : ℕ :=
  ds.foldl (fun n c => 10 * n + (c.toNat - 48)) 0

/-- Python's float() applied to the decimal price strings this program
stores: digits, optionally followed by a dot and more digits.  Returns
none exactly when float() would raise ValueError on such input — in
particular on the empty string and on any non-numeric text. -/
def parsePrice (s : String) : Option ℚ :=
  let cs := s.toList
  let intPart := cs.takeWhile Char.isDigit
  let rest := cs.dropWhile Char.isDigit
  if intPart = [] then none
  else
    match rest with
    | [] => some (natOfDigits intPart : ℚ)
    | '.' :: frac =>
      if frac ≠ [] ∧ frac.all Char.isDigit then
        some ((natOfDigits intPart : ℚ) + (natOfDigits frac : ℚ) / (10 ^ frac.length : ℚ))
      else none
    | _ => none

/-- The read loop of plot_cheapest_books (lines 83-87): every row is
turned into a (title, float(price)) pair; float() raising on a missing
or unparsable price aborts the whole read (none). -/
def parseAll : List Row → Option (List (String × ℚ))
  | [] => some []
  | r :: rs =>
    match parsePrice r.price, parseAll rs with
    | some p, some l => some ((r.title, p) :: l)
    | _, _ => none

/-- The comparison used by sorted(books, key=lambda x: x["price"]):
pairs ordered by their price component. -/
def priceOrd (a b : String × ℚ) : Prop := a.2 ≤ b.2

instance : DecidableRel priceOrd := fun a b => inferInstanceAs (Decidable (a.2 ≤ b.2))

instance : IsTotal (String × ℚ) priceOrd := ⟨fun a b => le_total a.2 b.2⟩

instance : IsTrans (String × ℚ) priceOrd := ⟨fun _ _ _ h1 h2 => le_trans h1 h2⟩

/-- plot_cheapest_books (lines 79-98), modelled as the data it draws:
read all rows as (title, float(price)) pairs, sort by price ascending
(Python's sorted is a stable sort, modelled by insertion sort), take
the first 10.  none when float() raised on some row. -/
def plot_cheapest_books (rows : List Row) : Option (List (String × ℚ)) :=
  (parseAll rows).map (fun books => (books.insertionSort priceOrd).take 10)

/-- Appending one price to its date's list, as
price_by_date.setdefault(date_key, []).append(float(price)) does: the
groups are an association list in key-first-insertion order; a key's
list is created at the moment its first price is appended. -/
def addToGroup : List (String × List ℚ) → String → ℚ → List (String × List ℚ)
  | [], d, p => [(d, [p])]
  | (k, ps) :: rest, d, p =>
    if k = d then (k, ps ++ [p]) :: rest
    else (k, ps) :: addToGroup rest d p

/-- The read loop of plot_price_trends (lines 105-110), processing the
rows in store order with the groups accumulated so far: a row with an
empty (falsy) price string is skipped; otherwise float(price) is
appended to the row's date's group, and float() raising on a non-empty
unparsable price aborts the whole read (none). -/
def buildGroupsFrom (acc : List (String × List ℚ)) : List Row → Option (List (String × List ℚ))
  | [] => some acc
  | r :: rs =>
    if r.price = "" then buildGroupsFrom acc rs
    else
      match parsePrice r.price with
      | some p => buildGroupsFrom (addToGroup acc r.date p) rs
      | none => none

/-- The groups built by the read loop of plot_price_trends, starting
from the empty dict. -/
def buildGroups (rows : List Row) : Option (List (String × List ℚ)) :=
  buildGroupsFrom [] rows

/-- Lexicographic comparison of character lists by code point, the
order Python uses to compare strings. -/
def charListLe : List Char → List Char → Bool
  | [], _ => true
  | _ :: _, [] => false
  | a :: as, b :: bs =>
    if a < b then true else if b < a then false else charListLe as bs

/-- Comparison used by sorted() on the date strings: Python compares
strings lexicographically by code point. -/
def stringLe (a b : String) : Bool := charListLe a.toList b.toList

/-- The date order as a relation, for the sort over the group keys. -/
def dateLe (a b : String) : Prop := stringLe a b = true

instance : DecidableRel dateLe := fun a b => instDecidableEqBool (stringLe a b) true

/-- Arithmetic mean as sum(prices) / len(prices). -/
def mean (ps : List ℚ) : ℚ := ps.sum / (ps.length : ℚ)

/-- Lookup of a date's price list in the groups. -/
def groupPrices (g : List (String × List ℚ)) (d : String) : List ℚ :=
  match g.find? (fun kv => kv.1 = d) with
  | some kv => kv.2
  | none => []

/-- plot_price_trends (lines 100-122), modelled as the data it draws:
group the non-empty prices by date, sort the dates ascending, and pair
each date with the mean of its prices.  none when float() raised on
some non-empty unparsable price. -/
def plot_price_trends (rows : List Row) : Option (List (String × ℚ)) :=
  (buildGroups rows).map (fun g =>
    ((g.map Prod.fst).insertionSort dateLe).map (fun d => (d, mean (groupPrices g d))))

namespace bookshop

/-- Stamping of one extracted item with the run's capture date, as in
the dict literal of src/bookshop_price_monitor.py lines 44-50. -/
def mkBook (today : String) (it : Item) : Book :=
  ⟨it.title, it.price, it.stock, it.rating, today⟩

/-- The page loop of scrape_books in src/bookshop_price_monitor.py
(lines 21-54), under the same environment model as the first
script. -/
def scrapeLoop (today : String) : List PageResult → ScrapeOut
  | [] => ⟨[], false⟩
  | PageResult.notFound :: _ => ⟨[], false⟩
  | PageResult.fetchError :: _ => ⟨[], true⟩
  | PageResult.ok items :: rest =>
    if items.isEmpty then ⟨[], false⟩
    else
      let r := scrapeLoop today rest
      ⟨items.map (mkBook today) ++ r.books, r.errored⟩

/-- scrape_books of src/bookshop_price_monitor.py. -/
def scrape_books (today : String) (pages : List PageResult) : ScrapeOut :=
  scrapeLoop today pages

/-- save_to_csv of src/bookshop_price_monitor.py (lines 61-69). -/
def save_to_csv (data : List Book) (fs : FileState) : FileState :=
  match fs with
  | none => some (Line.header :: data.map Line.data)
  | some lines => some (lines ++ data.map Line.data)

/-- The read loop of plot_cheapest_books in
src/bookshop_price_monitor.py (lines 76-79). -/
def parseAll : List Row → Option (List (String × ℚ))
  | [] => some []
  | r :: rs =>
    match parsePrice r.price, parseAll rs with
    | some p, some l => some ((r.title, p) :: l)
    | _, _ => none

/-- plot_cheapest_books of src/bookshop_price_monitor.py (lines
74-90), modelled as the data it draws. -/
def plot_cheapest_books (rows : List Row) : Option (List (String × ℚ)) :=
  (parseAll rows).map (fun books => (books.insertionSort priceOrd).take 10)

/-- The setdefault-append step of plot_price_trends in
src/bookshop_price_monitor.py (line 103). -/
def addToGroup : List (String × List ℚ) → String → ℚ → List (String × List ℚ)
  | [], d, p => [(d, [p])]
  | (k, ps) :: rest, d, p =>
    if k = d then (k, ps ++ [p]) :: rest
    else (k, ps) :: addToGroup rest d p

/-- The read loop of plot_price_trends in
src/bookshop_price_monitor.py (lines 98-103). -/
def buildGroupsFrom (acc : List (String × List ℚ)) : List Row → Option (List (String × List ℚ))
  | [] => some acc
  | r :: rs =>
    if r.price = "" then buildGroupsFrom acc rs
    else
      match parsePrice r.price with
      | some p => buildGroupsFrom (addToGroup acc r.date p) rs
      | none => none

/-- The groups built by the read loop of plot_price_trends in
src/bookshop_price_monitor.py. -/
def buildGroups (rows : List Row) : Option (List (String × List ℚ)) :=
  buildGroupsFrom [] rows

/-- The mean computation sum(prices) / len(prices) of
src/bookshop_price_monitor.py line 106. -/
def mean (ps : List ℚ) : ℚ := ps.sum / (ps.length : ℚ)

/-- Lookup of a date's price list, price_by_date[d] on line 106 of
src/bookshop_price_monitor.py. -/
def groupPrices (g : List (String × List ℚ)) (d : String) : List ℚ :=
  match g.find? (fun kv => kv.1 = d) with
  | some kv => kv.2
  | none => []

/-- plot_price_trends of src/bookshop_price_monitor.py (lines
95-115), modelled as the data it draws. -/
def plot_price_trends (rows : List Row) : Option (List (String × ℚ)) :=
  (buildGroups rows).map (fun g =>
    ((g.map Prod.fst).insertionSort dateLe).map (fun d => (d, mean (groupPrices g d))))

/-- run_tracker of src/bookshop_price_monitor.py (lines 120-126),
modelled by its effect on the store. -/
def run_tracker (today : String) (pages : List PageResult) (fs : FileState) : FileState :=
  save_to_csv (scrape_books today pages).books fs

end bookshop

example : buildGroups
    [⟨"A", "10", "s", "r", "2024-01-01"⟩, ⟨"B", "20", "s", "r", "2024-01-01"⟩,
     ⟨"C", "15", "s", "r", "2024-01-02"⟩]
    = some [("2024-01-01", [10, 20]), ("2024-01-02", [15])] := by rfl

example : plot_price_trends
    [⟨"A", "10", "s", "r", "2024-01-01"⟩, ⟨"B", "20", "s", "r", "2024-01-01"⟩,
     ⟨"C", "15", "s", "r", "2024-01-02"⟩]
    = some [("2024-01-01", 15), ("2024-01-02", 15)] := by
  simp only [plot_price_trends, show buildGroups
      [⟨"A", "10", "s", "r", "2024-01-01"⟩, ⟨"B", "20", "s", "r", "2024-01-01"⟩,
       ⟨"C", "15", "s", "r", "2024-01-02"⟩]
      = some [("2024-01-01", [10, 20]), ("2024-01-02", [15])] from rfl, Option.map_some]
  norm_num [List.insertionSort, List.orderedInsert, mean, groupPrices, List.find?,
    show dateLe "2024-01-01" "2024-01-02" from by decide,
    show decide ("2024-01-01" = "2024-01-02") = false from by rfl]

example : plot_cheapest_books [⟨"A", "", "s", "r", "d"⟩] = none := by rfl

example : plot_price_trends [⟨"A", "abc", "s", "r", "d"⟩] = none := by rfl

example : plot_price_trends [⟨"A", "", "s", "r", "2024-01-03"⟩] = some [] := by rfl

/-! ## General lemmas about the embedded definitions -/

/-- The Bool comparison of character lists agrees with the
lexicographic strict order together with equality. -/
theorem charListLe_iff : ∀ as bs : List Char,
    charListLe as bs = true ↔ (as = bs ∨ List.Lex (· < ·) as bs)
  | [], [] => by simp [charListLe]
  | [], b :: bs => by simp [charListLe, List.Lex.nil]
  | a :: as, [] => by simp [charListLe, List.Lex.not_nil_right]
  | a :: as, b :: bs => by
    rcases lt_trichotomy a b with h | h | h
    · simp only [charListLe, if_pos h, true_iff]
      exact Or.inr (List.Lex.rel h)
    · subst h
      simp only [charListLe, if_neg (lt_irrefl a), List.cons.injEq, true_and,
        List.Lex.cons_iff]
      exact charListLe_iff as bs
    · have hab : ¬ a < b := not_lt_of_gt h
      simp only [charListLe, if_neg hab, if_pos h, Bool.false_eq_true, false_iff]
      rintro (heq | hlex)
      · cases heq
        exact lt_irrefl a h
      · cases hlex with
        | rel h' => exact lt_asymm h h'
        | cons h' => exact lt_irrefl a h

/-- The Bool string comparison agrees with the linear order on
strings. -/
theorem stringLe_iff (a b : String) : stringLe a b = true ↔ a ≤ b := by
  rw [stringLe, charListLe_iff, String.le_iff_toList_le, le_iff_lt_or_eq]
  exact ⟨fun h => h.elim (fun h => Or.inr h) (fun h => Or.inl h),
    fun h => h.elim (fun h => Or.inr h) (fun h => Or.inl h)⟩

/-- The date order is total. -/
theorem dateLe_total (a b : String) : dateLe a b ∨ dateLe b a := by
  simp only [dateLe, stringLe_iff]
  exact le_total a b

/-- The date order is transitive. -/
theorem dateLe_trans (a b c : String) : dateLe a b → dateLe b c → dateLe a c := by
  simp only [dateLe, stringLe_iff]
  exact le_trans

/-- A run of non-empty fetched pages contributes its stamped items in
order and the loop continues with the rest of the environment. -/
theorem scrapeLoop_append_ok (today : String) :
    ∀ (good : List (List Item)) (rest : List PageResult), (∀ l ∈ good, l ≠ []) →
      scrapeLoop today (good.map PageResult.ok ++ rest) =
        ⟨(good.flatten).map (mkBook today) ++ (scrapeLoop today rest).books,
          (scrapeLoop today rest).errored⟩
  | [], rest, _ => by simp [scrapeLoop]
  | l :: ls, rest, h => by
    have hl : ¬ l.isEmpty = true := by
      simp only [List.isEmpty_iff]
      exact h l (List.mem_cons_self l ls)
    have ih := scrapeLoop_append_ok today ls rest
      (fun x hx => h x (List.mem_cons_of_mem l hx))
    simp only [List.map_cons, List.cons_append, scrapeLoop, if_neg hl, List.append_eq, ih,
      List.flatten_cons, List.map_append, List.append_assoc]

/-- C7: every record produced by a run carries the same capture_date,
the date computed once before the fetch loop begins (the today
argument of scrape_books). -/
theorem capture_date_uniform (today : String) :
    ∀ (pages : List PageResult) (b : Book),
      b ∈ (scrape_books today pages).books → b.date = today := by
  intro pages
  induction pages with
  | nil => intro b hb; simp [scrape_books, scrapeLoop] at hb
  | cons hd tl ih =>
    intro b hb
    cases hd with
    | notFound => simp [scrape_books, scrapeLoop] at hb
    | fetchError => simp [scrape_books, scrapeLoop] at hb
    | ok items =>
      by_cases he : items.isEmpty
      · simp [scrape_books, scrapeLoop, he] at hb
      · simp only [scrape_books, scrapeLoop, if_neg he, List.mem_append] at hb
        rcases hb with h | h
        · rcases List.mem_map.mp h with ⟨it, _, rfl⟩
          rfl
        · exact ih b h

/-- Witness for capture_date_uniform at a concrete one-page run. -/
theorem capture_date_uniform_witness :
    (⟨"A", 5, "s", "Three", "d"⟩ : Book).date = "d" :=
  capture_date_uniform "d" [PageResult.ok [⟨"A", 5, "s", "Three"⟩]]
    ⟨"A", 5, "s", "Three", "d"⟩ (by decide)

/-- C8: a 404 status or a page with no items terminates the
pagination loop normally: the records gathered from the earlier pages
are returned as the run's batch and the error flag is not set. -/
theorem end_of_pagination_normal (today : String) (good : List (List Item))
    (rest : List PageResult) (h : ∀ l ∈ good, l ≠ []) :
    scrape_books today (good.map PageResult.ok ++ PageResult.notFound :: rest)
        = ⟨(good.flatten).map (mkBook today), false⟩
      ∧ scrape_books today (good.map PageResult.ok ++ PageResult.ok [] :: rest)
        = ⟨(good.flatten).map (mkBook today), false⟩ := by
  constructor
  · rw [scrape_books, scrapeLoop_append_ok today good _ h]
    simp [scrapeLoop]
  · rw [scrape_books, scrapeLoop_append_ok today good _ h]
    simp [scrapeLoop]

/-- Witness for end_of_pagination_normal at a concrete one-page
catalogue. -/
theorem end_of_pagination_normal_witness :
    scrape_books "d" [PageResult.ok [⟨"A", 5, "s", "Three"⟩], PageResult.notFound]
        = ⟨[⟨"A", 5, "s", "Three", "d"⟩], false⟩
      ∧ scrape_books "d" [PageResult.ok [⟨"A", 5, "s", "Three"⟩], PageResult.ok []]
        = ⟨[⟨"A", 5, "s", "Three", "d"⟩], false⟩ :=
  end_of_pagination_normal "d" [[⟨"A", 5, "s", "Three"⟩]] [] (by decide)

/-- C1 is false on the code: a transport error on page 2 breaks the
loop, but the partial batch from page 1 is returned and run_tracker
persists it, so the store gains one row, not zero. -/
theorem midScrapeError_persists_counterexample :
    run_tracker "2024-01-01" [PageResult.ok [⟨"A", 5, "s", "Three"⟩], PageResult.fetchError] none
        = some [Line.header, Line.data ⟨"A", 5, "s", "Three", "2024-01-01"⟩]
      ∧ ((run_tracker "2024-01-01" [PageResult.ok [⟨"A", 5, "s", "Three"⟩],
            PageResult.fetchError] none).getD []).countP (fun l => !(isHeader l)) = 1
      ∧ ((run_tracker "2024-01-01" [PageResult.ok [⟨"A", 5, "s", "Three"⟩],
            PageResult.fetchError] none).getD []).countP (fun l => !(isHeader l)) ≠ 0 := by
  exact ⟨rfl, rfl, by decide⟩

/-- C1 (amended): a transport failure other than 404 stops fetching
further pages and is reported (error flag set), but the records
scraped from the earlier pages are returned and persisted: the store
gains exactly one row per record scraped before the failure. -/
theorem midScrapeError_partial_persisted (today : String) (good : List (List Item))
    (rest : List PageResult) (fs : FileState) (h : ∀ l ∈ good, l ≠ []) :
    scrape_books today (good.map PageResult.ok ++ PageResult.fetchError :: rest)
        = ⟨(good.flatten).map (mkBook today), true⟩
      ∧ run_tracker today (good.map PageResult.ok ++ PageResult.fetchError :: rest) fs
        = save_to_csv ((good.flatten).map (mkBook today)) fs := by
  have h1 : scrape_books today (good.map PageResult.ok ++ PageResult.fetchError :: rest)
      = ⟨(good.flatten).map (mkBook today), true⟩ := by
    rw [scrape_books, scrapeLoop_append_ok today good _ h]
    simp [scrapeLoop]
  refine ⟨h1, ?_⟩
  rw [run_tracker, h1]

/-- Witness for midScrapeError_partial_persisted at a concrete
failing run. -/
theorem midScrapeError_partial_persisted_witness :
    scrape_books "d" [PageResult.ok [⟨"A", 5, "s", "Three"⟩], PageResult.fetchError]
        = ⟨[⟨"A", 5, "s", "Three", "d"⟩], true⟩
      ∧ run_tracker "d" [PageResult.ok [⟨"A", 5, "s", "Three"⟩], PageResult.fetchError] none
        = save_to_csv [⟨"A", 5, "s", "Three", "d"⟩] none :=
  midScrapeError_partial_persisted "d" [[⟨"A", 5, "s", "Three"⟩]] [] none (by decide)

/-- One run step of the persisting fold. -/
theorem runSaves_cons (b : List Book) (bs : List (List Book)) (fs : FileState) :
    runSaves (b :: bs) fs = runSaves bs (save_to_csv b fs) := rfl

/-- Persisting any sequence of batches into an existing file appends
exactly the batches' data rows, in order, after the existing lines. -/
theorem runSaves_existing : ∀ (batches : List (List Book)) (lines : List Line),
    runSaves batches (some lines) = some (lines ++ (batches.flatten).map Line.data)
  | [], lines => by simp [runSaves]
  | b :: bs, lines => by
    rw [runSaves_cons,
      show save_to_csv b (some lines) = some (lines ++ b.map Line.data) from rfl,
      runSaves_existing bs (lines ++ b.map Line.data)]
    simp [List.flatten_cons, List.append_assoc]

/-- Data rows are never header rows. -/
theorem countP_header_map_data (bs : List Book) :
    (bs.map Line.data).countP (fun l => isHeader l) = 0 := by
  rw [List.countP_eq_zero]
  intro a ha
  rcases List.mem_map.mp ha with ⟨b, _, rfl⟩
  simp [isHeader]

/-- C5: starting with no store file, the first run creates the store
with the header row followed by its rows, and every later run appends
its rows only, so after any non-empty sequence of runs the store is
the header followed by all batches' rows in order, and the header
occurs exactly once. -/
theorem header_written_once (batches : List (List Book)) (h : batches ≠ []) :
    runSaves batches none = some (Line.header :: (batches.flatten).map Line.data)
      ∧ ((runSaves batches none).getD []).countP (fun l => isHeader l) = 1 := by
  obtain ⟨b, bs, rfl⟩ := List.exists_cons_of_ne_nil h
  have h1 : runSaves (b :: bs) none
      = some (Line.header :: ((b :: bs).flatten).map Line.data) := by
    rw [runSaves_cons,
      show save_to_csv b none = some (Line.header :: b.map Line.data) from rfl,
      runSaves_existing bs]
    simp [List.flatten_cons, List.map_append]
  refine ⟨h1, ?_⟩
  rw [h1]
  simp only [Option.getD_some, List.countP_cons]
  rw [countP_header_map_data]
  simp [isHeader]

/-- Witness for header_written_once: two concrete runs. -/
theorem header_written_once_witness :
    runSaves [[⟨"A", 5, "s", "Three", "d"⟩], [⟨"B", 7, "s", "One", "e"⟩]] none
        = some [Line.header, Line.data ⟨"A", 5, "s", "Three", "d"⟩,
            Line.data ⟨"B", 7, "s", "One", "e"⟩]
      ∧ ((runSaves [[⟨"A", 5, "s", "Three", "d"⟩], [⟨"B", 7, "s", "One", "e"⟩]]
          none).getD []).countP (fun l => isHeader l) = 1 :=
  header_written_once [[⟨"A", 5, "s", "Three", "d"⟩], [⟨"B", 7, "s", "One", "e"⟩]]
    (by decide)

/-- C10: the persister keys the header on file existence, not
content: into an existing empty store file, a run appends its rows
with no header, and however many runs follow, no header row is ever
written. -/
theorem empty_file_no_header (data0 : List Book) (batches : List (List Book)) :
    save_to_csv data0 (some []) = some (data0.map Line.data)
      ∧ runSaves batches (some []) = some ((batches.flatten).map Line.data)
      ∧ ((runSaves batches (some [])).getD []).countP (fun l => isHeader l) = 0 := by
  refine ⟨rfl, ?_, ?_⟩
  · rw [runSaves_existing batches []]
    simp
  · rw [runSaves_existing batches []]
    simp only [Option.getD_some, List.nil_append]
    exact countP_header_map_data _

/-- A successful read of the cheapest-books loop yields one pair per
store row. -/
theorem parseAll_length : ∀ (rows : List Row) (books : List (String × ℚ)),
    parseAll rows = some books → books.length = rows.length
  | [], books, h => by
    simp only [parseAll, Option.some.injEq] at h
    subst h
    rfl
  | r :: rs, books, h => by
    simp only [parseAll] at h
    cases hp : parsePrice r.price with
    | none => rw [hp] at h; exact absurd h (by simp)
    | some p =>
      cases hl : parseAll rs with
      | none => rw [hp, hl] at h; exact absurd h (by simp)
      | some l =>
        rw [hp, hl] at h
        simp only [Option.some.injEq] at h
        subst h
        simp [parseAll_length rs l hl]

/-- One unparsable price makes the whole cheapest-books read fail. -/
theorem parseAll_none (rows : List Row) (r : Row) (hr : r ∈ rows)
    (hp : parsePrice r.price = none) : parseAll rows = none := by
  induction rows with
  | nil => cases hr
  | cons x xs ih =>
    rcases List.mem_cons.mp hr with rfl | hmem
    · simp [parseAll, hp]
    · cases hx : parsePrice x.price <;> simp [parseAll, hx, ih hmem]

/-- A row with an empty price string is skipped by the trends read
loop wherever it sits. -/
theorem buildGroupsFrom_skip (r : Row) (hr : r.price = "") :
    ∀ (pre : List Row) (acc : List (String × List ℚ)) (post : List Row),
      buildGroupsFrom acc (pre ++ r :: post) = buildGroupsFrom acc (pre ++ post)
  | [], acc, post => by simp [buildGroupsFrom, hr]
  | x :: xs, acc, post => by
    by_cases hx : x.price = ""
    · simp only [List.cons_append, buildGroupsFrom, if_pos hx]
      exact buildGroupsFrom_skip r hr xs acc post
    · simp only [List.cons_append, buildGroupsFrom, if_neg hx]
      cases parsePrice x.price with
      | none => rfl
      | some p => exact buildGroupsFrom_skip r hr xs (addToGroup acc x.date p) post

/-- One non-empty unparsable price makes the whole trends read
fail. -/
theorem buildGroupsFrom_none (r : Row) (hne : r.price ≠ "")
    (hp : parsePrice r.price = none) :
    ∀ (rows : List Row) (acc : List (String × List ℚ)), r ∈ rows →
      buildGroupsFrom acc rows = none
  | [], _, hr => absurd hr (List.not_mem_nil r)
  | x :: xs, acc, hr => by
    rcases List.mem_cons.mp hr with rfl | hmem
    · simp [buildGroupsFrom, hne, hp]
    · by_cases hx : x.price = ""
      · simp only [buildGroupsFrom, if_pos hx]
        exact buildGroupsFrom_none r hne hp xs acc hmem
      · simp only [buildGroupsFrom, if_neg hx]
        cases parsePrice x.price with
        | none => rfl
        | some p => exact buildGroupsFrom_none r hne hp xs (addToGroup acc x.date p) hmem

/-- C2 is false on the code: a record with a missing price is fatal to
the cheapest-N read (float raises), and a record with a non-empty
unparsable price is fatal to the average-by-date read; neither
derivation produces an output. -/
theorem malformed_price_counterexample :
    plot_cheapest_books [⟨"A", "", "s", "r", "d"⟩] = none
      ∧ plot_price_trends [⟨"B", "5x", "s", "r", "d"⟩] = none :=
  ⟨rfl, rfl⟩

/-- C2 (amended): in the average-by-date derivation a record with an
empty price field is excluded and is not fatal; but a record whose
price is missing or unparsable is fatal to the cheapest-N derivation,
and a record with a non-empty unparsable price is fatal to the
average-by-date derivation. -/
theorem malformed_price_policy :
    (∀ (pre post : List Row) (r : Row), r.price = "" →
        plot_price_trends (pre ++ r :: post) = plot_price_trends (pre ++ post))
      ∧ (∀ (rows : List Row) (r : Row), r ∈ rows → parsePrice r.price = none →
          plot_cheapest_books rows = none)
      ∧ (∀ (rows : List Row) (r : Row), r ∈ rows → r.price ≠ "" →
          parsePrice r.price = none → plot_price_trends rows = none) := by
  refine ⟨?_, ?_, ?_⟩
  · intro pre post r hr
    rw [plot_price_trends, plot_price_trends, buildGroups, buildGroups,
      buildGroupsFrom_skip r hr pre [] post]
  · intro rows r hr hp
    rw [plot_cheapest_books, parseAll_none rows r hr hp]
    rfl
  · intro rows r hr hne hp
    rw [plot_price_trends, buildGroups, buildGroupsFrom_none r hne hp rows [] hr]
    rfl

/-- Witness for malformed_price_policy at concrete stores. -/
theorem malformed_price_policy_witness :
    plot_price_trends [⟨"A", "10", "s", "r", "d"⟩, ⟨"B", "", "s", "r", "d"⟩]
        = plot_price_trends [⟨"A", "10", "s", "r", "d"⟩]
      ∧ plot_cheapest_books [⟨"B", "", "s", "r", "d"⟩] = none
      ∧ plot_price_trends [⟨"B", "x", "s", "r", "d"⟩] = none :=
  ⟨malformed_price_policy.1 [⟨"A", "10", "s", "r", "d"⟩] [] ⟨"B", "", "s", "r", "d"⟩ rfl,
    malformed_price_policy.2.1 [⟨"B", "", "s", "r", "d"⟩] ⟨"B", "", "s", "r", "d"⟩
      (by decide) (by rfl),
    malformed_price_policy.2.2 [⟨"B", "x", "s", "r", "d"⟩] ⟨"B", "x", "s", "r", "d"⟩
      (by decide) (by decide) (by rfl)⟩

/-- C3 is false as universally stated: on a store holding one record
with an unparsable price and one valid-price record, the cheapest-N
derivation produces no output at all (float raises), instead of a
sorted list of length min(10, 1) = 1. -/
theorem cheapest_malformed_counterexample :
    plot_cheapest_books [⟨"B", "", "s", "r", "d"⟩, ⟨"A", "2", "s", "r", "d"⟩] = none
      ∧ parsePrice "2" = some 2 :=
  ⟨rfl, by decide⟩

/-- C3 (amended): on every store all of whose records' prices parse,
the cheapest-N derivation takes the first 10 of a stable ascending
sort of all records by price: the output is the 10-prefix of a
permutation of the records that is sorted by price, records in store
order whose prices satisfy the order (in particular, ties) keep their
relative order, and the output length is min(10, record count). -/
theorem cheapest_books_spec (rows : List Row) (books : List (String × ℚ))
    (h : parseAll rows = some books) :
    ∃ sortedBooks : List (String × ℚ),
      plot_cheapest_books rows = some (sortedBooks.take 10)
        ∧ sortedBooks.Perm books
        ∧ sortedBooks.Sorted priceOrd
        ∧ (∀ a b : String × ℚ, priceOrd a b →
            [a, b].Sublist books → [a, b].Sublist sortedBooks)
        ∧ (sortedBooks.take 10).length = min 10 rows.length := by
  refine ⟨books.insertionSort priceOrd, ?_, List.perm_insertionSort priceOrd books,
    List.sorted_insertionSort priceOrd books,
    fun a b hab hsub => List.pair_sublist_insertionSort hab hsub, ?_⟩
  · rw [plot_cheapest_books, h]
    rfl
  · rw [List.length_take, List.length_insertionSort, parseAll_length rows books h]

/-- Witness for cheapest_books_spec at a concrete two-row store. -/
theorem cheapest_books_spec_witness :
    ∃ sortedBooks : List (String × ℚ),
      plot_cheapest_books [⟨"A", "3", "s", "r", "d"⟩, ⟨"B", "1", "s", "r", "d"⟩]
          = some (sortedBooks.take 10)
        ∧ sortedBooks.Perm [("A", 3), ("B", 1)]
        ∧ sortedBooks.Sorted priceOrd
        ∧ (∀ a b : String × ℚ, priceOrd a b →
            [a, b].Sublist [("A", 3), ("B", 1)] → [a, b].Sublist sortedBooks)
        ∧ (sortedBooks.take 10).length
            = min 10 ([⟨"A", "3", "s", "r", "d"⟩, ⟨"B", "1", "s", "r", "d"⟩] : List Row).length :=
  cheapest_books_spec [⟨"A", "3", "s", "r", "d"⟩, ⟨"B", "1", "s", "r", "d"⟩]
    [("A", 3), ("B", 1)] (by decide)

/-- Every list stored in the groups built by addToGroup stays
non-empty if it was non-empty before, and the touched key's list gains
one element. -/
theorem addToGroup_nonempty : ∀ (acc : List (String × List ℚ)) (d : String) (p : ℚ),
    (∀ kv ∈ acc, kv.2 ≠ []) → ∀ kv ∈ addToGroup acc d p, kv.2 ≠ []
  | [], d, p, _ => by
    intro kv hkv
    simp only [addToGroup, List.mem_singleton] at hkv
    subst hkv
    simp
  | (k, ps) :: rest, d, p, h => by
    intro kv hkv
    simp only [addToGroup] at hkv
    by_cases hk : k = d
    · rw [if_pos hk] at hkv
      rcases List.mem_cons.mp hkv with rfl | hmem
      · simp
      · exact h kv (List.mem_cons_of_mem _ hmem)
    · rw [if_neg hk] at hkv
      rcases List.mem_cons.mp hkv with rfl | hmem
      · exact h (k, ps) (List.mem_cons_self _ _)
      · exact addToGroup_nonempty rest d p
          (fun kv' hkv' => h kv' (List.mem_cons_of_mem _ hkv')) kv hmem

/-- The trends read loop only ever creates a key by appending a first
price to it, so every key's list is non-empty. -/
theorem buildGroupsFrom_nonempty :
    ∀ (rows : List Row) (acc g : List (String × List ℚ)),
      (∀ kv ∈ acc, kv.2 ≠ []) → buildGroupsFrom acc rows = some g →
        ∀ kv ∈ g, kv.2 ≠ []
  | [], acc, g, hacc, hg => by
    simp only [buildGroupsFrom, Option.some.injEq] at hg
    subst hg
    exact hacc
  | r :: rs, acc, g, hacc, hg => by
    by_cases hr : r.price = ""
    · rw [buildGroupsFrom, if_pos hr] at hg
      exact buildGroupsFrom_nonempty rs acc g hacc hg
    · rw [buildGroupsFrom, if_neg hr] at hg
      cases hp : parsePrice r.price with
      | none => rw [hp] at hg; exact absurd hg (by simp)
      | some p =>
        rw [hp] at hg
        exact buildGroupsFrom_nonempty rs (addToGroup acc r.date p) g
          (addToGroup_nonempty acc r.date p hacc) hg

/-- C9: in the average-by-date derivation every date key present in
the grouping maps to a non-empty price list (a key is created only
when a price is appended), so the per-date mean divides by a non-zero
count. -/
theorem group_lists_nonempty (rows : List Row) (g : List (String × List ℚ))
    (h : buildGroups rows = some g) :
    ∀ kv ∈ g, kv.2 ≠ [] ∧ ((kv.2.length : ℚ) ≠ 0) := by
  intro kv hkv
  have h1 : kv.2 ≠ [] :=
    buildGroupsFrom_nonempty rows [] g (by simp) h kv hkv
  refine ⟨h1, ?_⟩
  rw [Nat.cast_ne_zero]
  simpa [List.length_eq_zero] using h1

/-- Witness for group_lists_nonempty at a concrete one-row store. -/
theorem group_lists_nonempty_witness :
    ([(10 : ℚ)] ≠ []) ∧ ((([(10 : ℚ)]).length : ℚ) ≠ 0) :=
  group_lists_nonempty [⟨"A", "10", "s", "r", "d"⟩] [("d", [10])] (by rfl)
    ("d", [10]) (by decide)

/-- Appending a price to a date's group extends exactly that date's
price list by that one price. -/
theorem groupPrices_addToGroup_same : ∀ (acc : List (String × List ℚ)) (d : String) (p : ℚ),
    groupPrices (addToGroup acc d p) d = groupPrices acc d ++ [p]
  | [], d, p => by
    simp [addToGroup, groupPrices, List.find?]
  | (k, ps) :: rest, d, p => by
    by_cases hk : k = d
    · subst hk
      simp [addToGroup, groupPrices, List.find?]
    · simp only [addToGroup, if_neg hk, groupPrices, List.find?, decide_eq_true_eq,
        if_neg hk]
      rw [show (decide (k = d)) = false from by simp [hk]]
      exact groupPrices_addToGroup_same rest d p

/-- Appending a price to a date's group leaves every other date's
price list unchanged. -/
theorem groupPrices_addToGroup_other : ∀ (acc : List (String × List ℚ)) (d d' : String)
    (p : ℚ), d' ≠ d → groupPrices (addToGroup acc d p) d' = groupPrices acc d'
  | [], d, d', p, hne => by
    simp only [addToGroup, groupPrices, List.find?]
    rw [show (decide (d = d')) = false from by simp [Ne.symm hne]]
  | (k, ps) :: rest, d, d', p, hne => by
    by_cases hk : k = d
    · subst hk
      simp only [addToGroup, if_pos rfl, groupPrices, List.find?]
      rw [show (decide (k = d')) = false from by simp [Ne.symm hne]]
    · simp only [addToGroup, if_neg hk, groupPrices, List.find?]
      cases hkd : decide (k = d') with
      | true => rfl
      | false => exact groupPrices_addToGroup_other rest d d' p hne

/-- Keys after an addToGroup step: the touched date joins the key set;
nothing else changes. -/
theorem addToGroup_keys_mem : ∀ (acc : List (String × List ℚ)) (d0 : String) (p : ℚ)
    (d : String), d ∈ (addToGroup acc d0 p).map Prod.fst ↔
      d ∈ acc.map Prod.fst ∨ d = d0
  | [], d0, p, d => by simp [addToGroup]
  | (k, ps) :: rest, d0, p, d => by
    by_cases hk : k = d0
    · simp only [addToGroup, if_pos hk, List.map_cons, List.mem_cons]
      subst hk
      tauto
    · simp only [addToGroup, if_neg hk, List.map_cons, List.mem_cons,
        addToGroup_keys_mem rest d0 p d]
      tauto

/-- The key list after an addToGroup step, as a list: unchanged when
the date is already a key, extended by the date otherwise. -/
theorem addToGroup_keys : ∀ (acc : List (String × List ℚ)) (d : String) (p : ℚ),
    (addToGroup acc d p).map Prod.fst =
      if d ∈ acc.map Prod.fst then acc.map Prod.fst else acc.map Prod.fst ++ [d]
  | [], d, p => by simp [addToGroup]
  | (k, ps) :: rest, d, p => by
    by_cases hk : k = d
    · subst hk
      simp [addToGroup]
    · simp only [addToGroup, if_neg hk, List.map_cons, addToGroup_keys rest d p,
        List.mem_cons]
      by_cases hd : d ∈ rest.map Prod.fst
      · rw [if_pos hd, if_pos (Or.inr hd)]
      · rw [if_neg hd, if_neg (by
          rintro (h | h)
          · exact hk h.symm
          · exact hd h)]
        simp

/-- Value characterization of the trends read loop: on success, each
date's price list is whatever the accumulator already held for that
date followed by the parsed prices of that date's non-empty-priced
rows, in store order. -/
theorem buildGroupsFrom_prices :
    ∀ (rows : List Row) (acc g : List (String × List ℚ)),
      buildGroupsFrom acc rows = some g → ∀ d : String,
        groupPrices g d = groupPrices acc d ++
          ((rows.filter (fun r => decide (r.date = d) && !(r.price == ""))).filterMap
            (fun r => parsePrice r.price))
  | [], acc, g, hg, d => by
    simp only [buildGroupsFrom, Option.some.injEq] at hg
    subst hg
    simp
  | r :: rs, acc, g, hg, d => by
    by_cases hr : r.price = ""
    · rw [buildGroupsFrom, if_pos hr] at hg
      have ih := buildGroupsFrom_prices rs acc g hg d
      rw [ih, List.filter_cons]
      simp [hr]
    · rw [buildGroupsFrom, if_neg hr] at hg
      cases hp : parsePrice r.price with
      | none => rw [hp] at hg; exact absurd hg (by simp)
      | some p =>
        rw [hp] at hg
        have ih := buildGroupsFrom_prices rs (addToGroup acc r.date p) g hg d
        by_cases hd : r.date = d
        · subst hd
          rw [ih, groupPrices_addToGroup_same, List.filter_cons]
          have hcond : (decide (r.date = r.date) && !(r.price == "")) = true := by
            simp [hr]
          rw [if_pos hcond, List.filterMap_cons, hp]
          simp [List.append_assoc]
        · rw [ih, groupPrices_addToGroup_other acc r.date d p (Ne.symm hd),
            List.filter_cons]
          simp [hd]

/-- Key membership of the trends read loop: on success, the keys are
the accumulator's keys together with the dates of the non-empty-priced
rows. -/
theorem buildGroupsFrom_keys_mem :
    ∀ (rows : List Row) (acc g : List (String × List ℚ)),
      buildGroupsFrom acc rows = some g → ∀ d : String,
        d ∈ g.map Prod.fst ↔ d ∈ acc.map Prod.fst ∨
          d ∈ (rows.filter (fun r => !(r.price == ""))).map Row.date
  | [], acc, g, hg, d => by
    simp only [buildGroupsFrom, Option.some.injEq] at hg
    subst hg
    simp
  | r :: rs, acc, g, hg, d => by
    by_cases hr : r.price = ""
    · rw [buildGroupsFrom, if_pos hr] at hg
      rw [buildGroupsFrom_keys_mem rs acc g hg d, List.filter_cons]
      simp [hr]
    · rw [buildGroupsFrom, if_neg hr] at hg
      cases hp : parsePrice r.price with
      | none => rw [hp] at hg; exact absurd hg (by simp)
      | some p =>
        rw [hp] at hg
        rw [buildGroupsFrom_keys_mem rs (addToGroup acc r.date p) g hg d,
          addToGroup_keys_mem acc r.date p d, List.filter_cons]
        have hcond : (!(r.price == "")) = true := by simp [hr]
        rw [if_pos hcond]
        simp only [List.map_cons, List.mem_cons]
        tauto

/-- Key distinctness of the trends read loop: on success the key list
has no duplicates (one group per date). -/
theorem buildGroupsFrom_keys_nodup :
    ∀ (rows : List Row) (acc g : List (String × List ℚ)),
      buildGroupsFrom acc rows = some g → (acc.map Prod.fst).Nodup →
        (g.map Prod.fst).Nodup
  | [], acc, g, hg, hacc => by
    simp only [buildGroupsFrom, Option.some.injEq] at hg
    subst hg
    exact hacc
  | r :: rs, acc, g, hg, hacc => by
    by_cases hr : r.price = ""
    · rw [buildGroupsFrom, if_pos hr] at hg
      exact buildGroupsFrom_keys_nodup rs acc g hg hacc
    · rw [buildGroupsFrom, if_neg hr] at hg
      cases hp : parsePrice r.price with
      | none => rw [hp] at hg; exact absurd hg (by simp)
      | some p =>
        rw [hp] at hg
        refine buildGroupsFrom_keys_nodup rs (addToGroup acc r.date p) g hg ?_
        rw [addToGroup_keys acc r.date p]
        by_cases hd : r.date ∈ acc.map Prod.fst
        · rwa [if_pos hd]
        · rw [if_neg hd]
          simp [List.nodup_append, hacc, hd]

/-- C4 is false as universally stated: a store whose only row for a
date has an empty price yields no entry for that date (the group is
never created), not one entry per distinct capture_date present. -/
theorem trends_empty_date_counterexample :
    plot_price_trends [⟨"A", "", "s", "r", "2024-01-03"⟩] = some []
      ∧ ([⟨"A", "", "s", "r", "2024-01-03"⟩] : List Row).map Row.date = ["2024-01-03"] :=
  ⟨rfl, rfl⟩

/-- C4 (amended): whenever the trends read succeeds, the derivation
produces exactly one entry per distinct capture_date having at least
one non-empty-priced row, each entry the arithmetic mean of the parsed
prices of that date's non-empty-priced rows, with entries sorted
ascending by date; and on the concrete scenario-B store the output is
[(2024-01-01, 15), (2024-01-02, 15)] in that order. -/
theorem price_trends_spec (rows : List Row) (g : List (String × List ℚ))
    (h : buildGroups rows = some g) :
    ∃ out : List (String × ℚ),
      plot_price_trends rows = some out
        ∧ (out.map Prod.fst).Sorted (· ≤ ·)
        ∧ (out.map Prod.fst).Nodup
        ∧ (∀ d : String, d ∈ out.map Prod.fst ↔
            d ∈ (rows.filter (fun r => !(r.price == ""))).map Row.date)
        ∧ (∀ pr ∈ out, pr.2 = mean
            ((rows.filter (fun r => decide (r.date = pr.1) && !(r.price == ""))).filterMap
              (fun r => parsePrice r.price)))
        ∧ plot_price_trends
            [⟨"A", "10", "s", "r", "2024-01-01"⟩, ⟨"B", "20", "s", "r", "2024-01-01"⟩,
              ⟨"C", "15", "s", "r", "2024-01-02"⟩]
          = some [("2024-01-01", 15), ("2024-01-02", 15)] := by
  haveI : IsTotal String dateLe := ⟨dateLe_total⟩
  haveI : IsTrans String dateLe := ⟨fun a b c => dateLe_trans a b c⟩
  have hmapfst : ∀ l : List String,
      (l.map (fun d => (d, mean (groupPrices g d)))).map Prod.fst = l := by
    intro l
    induction l with
    | nil => rfl
    | cons x xs ih => simp [ih]
  refine ⟨((g.map Prod.fst).insertionSort dateLe).map
      (fun d => (d, mean (groupPrices g d))), ?_, ?_, ?_, ?_, ?_, ?_⟩
  · rw [plot_price_trends, h]
    rfl
  · rw [hmapfst]
    exact List.Pairwise.imp (fun hab => (stringLe_iff _ _).mp hab)
      (List.sorted_insertionSort dateLe (g.map Prod.fst))
  · rw [hmapfst]
    exact (List.perm_insertionSort dateLe (g.map Prod.fst)).nodup_iff.mpr
      (buildGroupsFrom_keys_nodup rows [] g h (by simp))
  · intro d
    rw [hmapfst, List.mem_insertionSort, buildGroupsFrom_keys_mem rows [] g h d]
    simp
  · intro pr hpr
    rcases List.mem_map.mp hpr with ⟨d, _, rfl⟩
    have hc := buildGroupsFrom_prices rows [] g h d
    rw [show groupPrices [] d = [] from rfl, List.nil_append] at hc
    rw [show ((d, mean (groupPrices g d)) : String × ℚ).2 = mean (groupPrices g d) from rfl,
      hc]
  · simp only [plot_price_trends, show buildGroups
        [⟨"A", "10", "s", "r", "2024-01-01"⟩, ⟨"B", "20", "s", "r", "2024-01-01"⟩,
          ⟨"C", "15", "s", "r", "2024-01-02"⟩]
        = some [("2024-01-01", [10, 20]), ("2024-01-02", [15])] from rfl, Option.map_some]
    norm_num [List.insertionSort, List.orderedInsert, mean, groupPrices, List.find?,
      show dateLe "2024-01-01" "2024-01-02" from by decide,
      show decide ("2024-01-01" = "2024-01-02") = false from by rfl]

/-- Witness for price_trends_spec at the concrete scenario-B store. -/
theorem price_trends_spec_witness :
    ∃ out : List (String × ℚ),
      plot_price_trends
          [⟨"A", "10", "s", "r", "2024-01-01"⟩, ⟨"B", "20", "s", "r", "2024-01-01"⟩,
            ⟨"C", "15", "s", "r", "2024-01-02"⟩]
        = some out
        ∧ (out.map Prod.fst).Sorted (· ≤ ·)
        ∧ (out.map Prod.fst).Nodup
        ∧ (∀ d : String, d ∈ out.map Prod.fst ↔
            d ∈ (([⟨"A", "10", "s", "r", "2024-01-01"⟩, ⟨"B", "20", "s", "r", "2024-01-01"⟩,
              ⟨"C", "15", "s", "r", "2024-01-02"⟩] : List Row).filter
                (fun r => !(r.price == ""))).map Row.date)
        ∧ (∀ pr ∈ out, pr.2 = mean
            ((([⟨"A", "10", "s", "r", "2024-01-01"⟩, ⟨"B", "20", "s", "r", "2024-01-01"⟩,
              ⟨"C", "15", "s", "r", "2024-01-02"⟩] : List Row).filter
                (fun r => decide (r.date = pr.1) && !(r.price == ""))).filterMap
              (fun r => parsePrice r.price)))
        ∧ plot_price_trends
            [⟨"A", "10", "s", "r", "2024-01-01"⟩, ⟨"B", "20", "s", "r", "2024-01-01"⟩,
              ⟨"C", "15", "s", "r", "2024-01-02"⟩]
          = some [("2024-01-01", 15), ("2024-01-02", 15)] :=
  price_trends_spec
    [⟨"A", "10", "s", "r", "2024-01-01"⟩, ⟨"B", "20", "s", "r", "2024-01-01"⟩,
      ⟨"C", "15", "s", "r", "2024-01-02"⟩]
    [("2024-01-01", [10, 20]), ("2024-01-02", [15])] (by rfl)

/-- The two copies of the page loop compute the same result. -/
theorem bookshop_scrapeLoop_eq (today : String) :
    ∀ pages : List PageResult, bookshop.scrapeLoop today pages = scrapeLoop today pages
  | [] => rfl
  | PageResult.notFound :: _ => rfl
  | PageResult.fetchError :: _ => rfl
  | PageResult.ok items :: rest => by
    simp only [bookshop.scrapeLoop, scrapeLoop, bookshop_scrapeLoop_eq today rest]
    rfl

/-- The two copies of the cheapest-books read loop compute the same
result. -/
theorem bookshop_parseAll_eq :
    ∀ rows : List Row, bookshop.parseAll rows = parseAll rows
  | [] => rfl
  | r :: rs => by
    simp only [bookshop.parseAll, parseAll, bookshop_parseAll_eq rs]

/-- The two copies of the setdefault-append step compute the same
result. -/
theorem bookshop_addToGroup_eq :
    ∀ (acc : List (String × List ℚ)) (d : String) (p : ℚ),
      bookshop.addToGroup acc d p = addToGroup acc d p
  | [], _, _ => rfl
  | (k, ps) :: rest, d, p => by
    simp only [bookshop.addToGroup, addToGroup, bookshop_addToGroup_eq rest d p]

/-- The two copies of the trends read loop compute the same result. -/
theorem bookshop_buildGroupsFrom_eq :
    ∀ (rows : List Row) (acc : List (String × List ℚ)),
      bookshop.buildGroupsFrom acc rows = buildGroupsFrom acc rows
  | [], _ => rfl
  | r :: rs, acc => by
    by_cases hr : r.price = ""
    · rw [bookshop.buildGroupsFrom, buildGroupsFrom, if_pos hr, if_pos hr,
        bookshop_buildGroupsFrom_eq rs acc]
    · rw [bookshop.buildGroupsFrom, buildGroupsFrom, if_neg hr, if_neg hr]
      cases parsePrice r.price with
      | none => rfl
      | some p =>
        show bookshop.buildGroupsFrom (bookshop.addToGroup acc r.date p) rs
          = buildGroupsFrom (addToGroup acc r.date p) rs
        rw [bookshop_addToGroup_eq acc r.date p,
          bookshop_buildGroupsFrom_eq rs (addToGroup acc r.date p)]

/-- C6: the two near-duplicate script copies are behaviorally
equivalent: on every input, each function of
src/book_price_monitor.py computes the same result and the same store
updates as the same-named function of src/bookshop_price_monitor.py. -/
theorem scripts_equivalent :
    (∀ (today : String) (pages : List PageResult),
        bookshop.scrape_books today pages = scrape_books today pages)
      ∧ (∀ (data : List Book) (fs : FileState),
          bookshop.save_to_csv data fs = save_to_csv data fs)
      ∧ (∀ rows : List Row,
          bookshop.plot_cheapest_books rows = plot_cheapest_books rows)
      ∧ (∀ rows : List Row,
          bookshop.plot_price_trends rows = plot_price_trends rows)
      ∧ (∀ (today : String) (pages : List PageResult) (fs : FileState),
          bookshop.run_tracker today pages fs = run_tracker today pages fs) := by
  have hscrape : ∀ (today : String) (pages : List PageResult),
      bookshop.scrape_books today pages = scrape_books today pages := by
    intro today pages
    rw [bookshop.scrape_books, scrape_books, bookshop_scrapeLoop_eq today pages]
  refine ⟨hscrape, fun data fs => rfl, ?_, ?_, ?_⟩
  · intro rows
    rw [bookshop.plot_cheapest_books, plot_cheapest_books, bookshop_parseAll_eq rows]
  · intro rows
    rw [bookshop.plot_price_trends, plot_price_trends, bookshop.buildGroups, buildGroups,
      bookshop_buildGroupsFrom_eq rows []]
    rfl
  · intro today pages fs
    rw [bookshop.run_tracker, run_tracker, hscrape today pages]
    rfl
